import Mathlib

/-!
Verification of the smart-test analyzer core.

Shallow embedding of the analysis pipeline of this repository:
`smart_test/analyzer.py` (function extraction, test-existence matching,
coverage parsing and mapping, summarizing, skeleton generation),
`smart_test/main.py` (the coverage-aware analyze command) and, where the
repository only declares them, components modelled from the specification.

Python strings are Lean `String`s; Python `pathlib.Path` values are carried
as their `str()` form; machine integers are `Int`; Python functions that can
raise are embedded as `Except String`-valued functions; external effects
(file discovery, XML parsing, dynamic import) are embedded as explicit
input data covering the outcomes of the corresponding library calls.
-/

/-! ### String primitives (character-list level, kernel-computable) -/

/-- Boolean prefix test on character lists: `hasPre pat s` holds when `pat`
is an initial segment of `s`.  Models Python `str.startswith`. -/
def hasPre : List Char → List Char → Bool
  | [], _ => true
  | _ :: _, [] => false
  | a :: as, b :: bs => a == b && hasPre as bs

/-- Boolean substring test on character lists: `hasSub pat s` holds when
`pat` occurs contiguously inside `s`.  Models the Python `in` operator on
strings. -/
def hasSub (pat : List Char) : List Char → Bool
  | [] => hasPre pat []
  | s@(_ :: rest) => hasPre pat s || hasSub pat rest

/-- Substring test on `String`: models Python `pat in s`. -/
def strHasSub (s pat : String) : Bool := hasSub pat.data s.data

/-- Prefix test on `String`: models Python `s.startswith(pat)`. -/
def strStarts (s pat : String) : Bool := hasPre pat.data s.data

/-- Lower-casing, models Python `str.lower` on the ASCII identifiers the
analyzer compares. -/
def lowerStr (s : String) : String := ⟨s.data.map Char.toLower⟩

/-- Models Python `qualname.replace('.', '_')`: with a single-character
pattern and replacement, `str.replace` is a character-wise map. -/
def underscoreDots (q : String) : String :=
  ⟨q.data.map (fun c => if c = '.' then '_' else c)⟩

/-- Models Python `str.split(c)` for a single-character separator: always
returns at least one (possibly empty) piece. -/
def splitOnChar (c : Char) : List Char → List (List Char)
  | [] => [[]]
  | x :: xs =>
    let r := splitOnChar c xs
    if x = c then [] :: r
    else
      match r with
      | h :: t => (x :: h) :: t
      | [] => [[x]]

/-- Models Python `sep.join(pieces)`. -/
def pyJoin (sep : String) : List String → String
  | [] => ""
  | [l] => l
  | l :: ls => l ++ (sep ++ pyJoin sep ls)

/-- Newline separator used by the `"\n".join(...)` calls of the source. -/
def nlStr : String := "\n"

/-- Separator used by the `", ".join(...)` call of the source. -/
def commaSp : String := ", "

/-- Models `pathlib.PurePath.stem`: the final path component without its
suffix, where the suffix starts at the last dot of the final component
provided that dot is neither its first nor its last character. -/
def pathStem (s : String) : String :=
  let base := ((splitOnChar '/' s.data).getLastD s.data)
  let rev := base.reverse
  match rev.span (fun c => c != '.') with
  | (_, []) => ⟨base⟩
  | (sufRev, _ :: stemRev) =>
    if stemRev = [] ∨ sufRev = [] then ⟨base⟩
    else ⟨stemRev.reverse⟩

/-- Substring containment as a proposition: `pat` occurs contiguously in
`s`.  Used to state the skeleton-content properties. -/
def ContainsSub (s pat : String) : Prop := ∃ a b : String, s = a ++ pat ++ b

/-! ### Data model: smart_test/analyzer.py `FunctionInfo` -/

/-- One record per discovered function (`FunctionInfo` dataclass of
smart_test/analyzer.py).  `file` and `module_rel` carry the `str()` of the
corresponding `Path` values; `covered` defaults to `False`. -/
structure FunctionInfo where
  file : String
  module_rel : String
  qualname : String
  lineno : Int
  has_tests : Bool
  covered : Bool := false
deriving DecidableEq, Repr

/-! ### Test-existence matcher (`_has_tests_for`, smart_test/analyzer.py) -/

/-- One candidate test file as the matcher sees it: its filename stem
(`tf.stem`) and its text (`read_text(tf)`). -/
structure TestFile where
  stem : String
  content : String
deriving DecidableEq, Repr

/-- Models `func_name.split(".", 1)` followed by the `"." in func_name`
test: for a dotted qualname, the enclosing class name and the rest; for a
bare name, no class and the name itself. -/
def splitQual (q : String) : Option String × String :=
  match q.data.span (fun c => c != '.') with
  | (_, []) => (none, q)
  | (before, _ :: after) => (some ⟨before⟩, ⟨after⟩)

/-- Relevance test of `_has_tests_for`:
`mod_base in tf.stem or (class_name and class_name.lower() in tf.stem.lower())`. -/
def relevantFile (mod_base : String) (class_name : Option String) (tf : TestFile) : Bool :=
  strHasSub tf.stem mod_base ||
    (match class_name with
     | some c => strHasSub (lowerStr tf.stem) (lowerStr c)
     | none => false)

/-- Content test of `_has_tests_for`: the two `test_...` containment checks
followed by the `Test<ClassName>` check (the latter only for methods).
Note the second check uses the qualname verbatim, dot included. -/
def fileMatches (func_name method_name : String) (class_name : Option String)
    (tf : TestFile) : Bool :=
  strHasSub tf.content ( "test_" ++ method_name) ||
  strHasSub tf.content ( "test_" ++ func_name) ||
    (match class_name with
     | some c => strHasSub tf.content ( "Test" ++ c)
     | none => false)

/-- The `for tf in test_files:` loop of `_has_tests_for` with its early
`return True`. -/
def hasTestsLoop (mod_base func_name method_name : String)
    (class_name : Option String) : List TestFile → Bool
  | [] => false
  | tf :: rest =>
    if relevantFile mod_base class_name tf then
      if fileMatches func_name method_name class_name tf then true
      else hasTestsLoop mod_base func_name method_name class_name rest
    else hasTestsLoop mod_base func_name method_name class_name rest

/-- `_has_tests_for(module_rel, func_name, test_files)` of
smart_test/analyzer.py. -/
def has_tests_for (module_rel func_name : String) (test_files : List TestFile) : Bool :=
  hasTestsLoop (pathStem module_rel) func_name (splitQual func_name).2
    (splitQual func_name).1 test_files

/-- Matcher as the specification sentence words it (spec 4.3, claim C1):
identical to `has_tests_for` except that the qualname containment check
uses `test_<qualname with the dot replaced by an underscore>`.  Declared
only to compare the spec's wording against the code. -/
def specHasTests (module_rel func_name : String) (test_files : List TestFile) : Bool :=
  let mod_base := pathStem module_rel
  let cls := (splitQual func_name).1
  let mth := (splitQual func_name).2
  test_files.any (fun tf =>
    relevantFile mod_base cls tf &&
      (strHasSub tf.content ( "test_" ++ mth) ||
       strHasSub tf.content ( "test_" ++ underscoreDots func_name) ||
       (match cls with
        | some c => strHasSub tf.content ( "Test" ++ c)
        | none => false)))

/-! ### Python module syntax trees and extraction
(`_functions_in_ast`, `analyze_project` of smart_test/analyzer.py) -/

/-- Abstract syntax nodes as the extractor distinguishes them: function
definitions, class definitions, and any other node with children.  Lean's
structural equality stands in for the node comparison of the Python
`node in potential_parent.body` test (`ast` nodes compare by identity;
the trees built here contain no two structurally equal distinct nodes). -/
inductive PyNode where
  | funcDef (nm : String) (lineno : Int) (body : List PyNode)
  | classDef (nm : String) (body : List PyNode)
  | stmtNode (children : List PyNode)

mutual

/-- Structural equality test for nodes (see `PyNode`). -/
def beqNode : PyNode → PyNode → Bool
  | .funcDef n1 l1 b1, .funcDef n2 l2 b2 => n1 == n2 && l1 == l2 && beqNodes b1 b2
  | .classDef n1 b1, .classDef n2 b2 => n1 == n2 && beqNodes b1 b2
  | .stmtNode c1, .stmtNode c2 => beqNodes c1 c2
  | _, _ => false

/-- Pointwise `beqNode` on node lists. -/
def beqNodes : List PyNode → List PyNode → Bool
  | [], [] => true
  | a :: as, b :: bs => beqNode a b && beqNodes as bs
  | _, _ => false

end

/-- Child nodes, models `ast.iter_child_nodes`. -/
def childrenOf : PyNode → List PyNode
  | .funcDef _ _ b => b
  | .classDef _ b => b
  | .stmtNode c => c

mutual

/-- Size of a node, measure for the traversal below. -/
def sizeN : PyNode → Nat
  | .funcDef _ _ b => 1 + sizeL b
  | .classDef _ b => 1 + sizeL b
  | .stmtNode c => 1 + sizeL c

/-- Size of a node list. -/
def sizeL : List PyNode → Nat
  | [] => 0
  | n :: ns => sizeN n + sizeL ns

end

/-- Models `ast.walk`: breadth-first traversal yielding every node,
starting from the given queue. -/
def walk (queue : List PyNode) : List PyNode :=
  match queue with
  | [] => []
  | n :: rest => n :: walk (rest ++ childrenOf n)
termination_by sizeL queue
decreasing_by
  have hc : sizeL (childrenOf n) < sizeN n := by
    cases n <;> simp [childrenOf, sizeN]
  have happ : ∀ (a b : List PyNode), sizeL (a ++ b) = sizeL a + sizeL b := by
    intro a b
    induction a with
    | nil => simp [sizeL]
    | cons x xs ih => simp [sizeL, ih]; omega
  simp [sizeL, happ]
  omega

/-- Models `node in potential_parent.body` (list membership via `==`). -/
def bodyContains (body : List PyNode) (n : PyNode) : Bool :=
  body.any (fun m => beqNode m n)

/-- Predicate of the parent-class search of `_functions_in_ast`: a class
definition whose (direct) body contains the given node. -/
def isClassWithNode (n : PyNode) : PyNode → Bool
  | .classDef _ body => bodyContains body n
  | _ => false

/-- Parent-class search of `_functions_in_ast`: the first class definition
in walk order whose body directly contains the node, if any. -/
def parentClassOf (tree n : PyNode) : Option String :=
  match (walk [tree]).find? (isClassWithNode n) with
  | some (.classDef cname _) => some cname
  | _ => none

/-- `_functions_in_ast(tree)` of smart_test/analyzer.py: every function
definition anywhere in the tree, with qualified name `Class.name` when a
class body directly contains it and the bare name otherwise, paired with
its declaration line. -/
def functions_in_ast (tree : PyNode) : List (String × Int) :=
  (walk [tree]).filterMap (fun n =>
    match n with
    | .funcDef nm lineno _ =>
      match parentClassOf tree n with
      | some cname => some (cname ++ "." ++ nm, lineno)
      | none => some (nm, lineno)
    | _ => none)

/-- File-skip test of `analyze_project`:
`str(rel).startswith("tests/") or any(p in str(rel) for p in ["test_", "_test"])`. -/
def skipFile (rel : String) : Bool :=
  strStarts rel ( "tests/") || strHasSub rel ( "test_") || strHasSub rel ( "_test")

/-- Qualname filter of `analyze_project`: skip when
`qualname.startswith("_") and not qualname.startswith("__init__")`. -/
def keepQualname (q : String) : Bool :=
  !(strStarts q ( "_") && !strStarts q ( "__init__"))

/-- Per-file body of the `analyze_project` loop: skip test-path files, skip
files whose parse failed (the `except ...: continue` branch), otherwise
build one record per kept extracted function.  `parsed` carries the
outcome of `ast.parse` for the file's text. -/
def analyze_file (test_files : List TestFile) (file rel : String)
    (parsed : Except String PyNode) : List FunctionInfo :=
  if skipFile rel then []
  else
    match parsed with
    | .error _ => []
    | .ok tree =>
      ((functions_in_ast tree).filter (fun ql => keepQualname ql.1)).map (fun ql =>
        { file := file
          module_rel := rel
          qualname := ql.1
          lineno := ql.2
          has_tests := has_tests_for rel ql.1 test_files })

/-- One discovered source file: its absolute path, its path relative to the
project root, and the outcome of parsing its text. -/
structure SrcFile where
  file : String
  rel : String
  parsed : Except String PyNode

/-- `analyze_project` of smart_test/analyzer.py over the discovered files:
the concatenation of the per-file record lists, in discovery order. -/
def analyze_project (files : List SrcFile) (test_files : List TestFile) :
    List FunctionInfo :=
  (files.map (fun f => analyze_file test_files f.file f.rel f.parsed)).flatten

/-! ### Coverage parsing and mapping
(`parse_coverage_xml`, `map_coverage_to_functions` of smart_test/analyzer.py) -/

/-- One `line` element of a Cobertura report: its `number` and `hits`
attributes, after `int(...)`. -/
structure CovLine where
  number : Int
  hits : Int
deriving DecidableEq, Repr

/-- One `class` element of a Cobertura report: its `filename` attribute and
its `lines/line` children. -/
structure CovClass where
  filename : String
  lines : List CovLine
deriving DecidableEq, Repr

/-- The covered-line set of one class element: numbers of the lines whose
`hits` exceed zero.  The Python set is carried as a list; only membership
is ever consumed. -/
def coveredLines (c : CovClass) : List Int :=
  (c.lines.filter (fun l => 0 < l.hits)).map (fun l => l.number)

/-- Python dict assignment `m[k] = v`: overwrites the value at an existing
key (keeping its position), otherwise appends a new entry. -/
def dictInsert (m : List (String × List Int)) (k : String) (v : List Int) :
    List (String × List Int) :=
  if m.any (fun p => p.1 == k) then
    m.map (fun p => if p.1 == k then (k, v) else p)
  else m ++ [(k, v)]

/-- Python `m.get(k, set())`: the value at `k`, or the empty set. -/
def dictGet (m : List (String × List Int)) (k : String) : List Int :=
  match m.find? (fun p => p.1 == k) with
  | some p => p.2
  | none => []

/-- The XML input of `parse_coverage_xml` as `xml.etree.ElementTree` sees
it: either malformed (`ET.parse` raises) or well-formed with its `class`
elements in document order. -/
inductive XmlSource where
  | malformed (msg : String)
  | wellFormed (classes : List CovClass)

/-- Models `ET.parse(xml_path)` followed by `root.findall(".//class")`:
a malformed document raises (here `Except.error`). -/
def ET_parse : XmlSource → Except String (List CovClass)
  | .malformed msg => .error msg
  | .wellFormed cs => .ok cs

/-- The dict-building loop of `parse_coverage_xml`:
`file_coverage[filename] = covered_lines` per class element. -/
def buildCoverage (classes : List CovClass) : List (String × List Int) :=
  classes.foldl (fun m c => dictInsert m c.filename (coveredLines c)) []

/-- `parse_coverage_xml` of smart_test/analyzer.py: parse, then build the
filename-to-covered-lines dict; a parse failure propagates. -/
def parse_coverage_xml (x : XmlSource) : Except String (List (String × List Int)) :=
  (ET_parse x).map buildCoverage

/-- Loop body of `map_coverage_to_functions`: mark the record covered when
its declaration line is in the covered set keyed by its relative module
path, else leave it unchanged. -/
def mapRecord (file_coverage : List (String × List Int)) (fi : FunctionInfo) :
    FunctionInfo :=
  if fi.lineno ∈ dictGet file_coverage fi.module_rel then
    { fi with covered := true }
  else fi

/-- `map_coverage_to_functions` of smart_test/analyzer.py (the in-place
mutation of each record is carried as a map over the list). -/
def map_coverage_to_functions (functions : List FunctionInfo)
    (file_coverage : List (String × List Int)) : List FunctionInfo :=
  functions.map (mapRecord file_coverage)

/-! ### Summarizer (`summarize_coverage` of smart_test/analyzer.py) -/

/-- The dict returned by `summarize_coverage`. -/
structure Summary where
  need_tests_count : Nat
  low_coverage_count : Nat
  priority_functions : List String
  untested_functions : List FunctionInfo
deriving DecidableEq, Repr

/-- The `not fi.has_tests or not fi.covered` filter. -/
def needsAttention (fi : FunctionInfo) : Bool := !fi.has_tests || !fi.covered

/-- The sort key test: `x.qualname.startswith("__init__")`. -/
def isInitName (q : String) : Bool := strStarts q ( "__init__")

/-- Python `sorted` is stable; with the Boolean key
`not x.qualname.startswith("__init__")` (False sorts before True) a stable
sort is exactly: the key-False elements in original order, then the
key-True elements in original order. -/
def stableSortInitFirst (l : List FunctionInfo) : List FunctionInfo :=
  l.filter (fun fi => isInitName fi.qualname) ++
    l.filter (fun fi => !isInitName fi.qualname)

/-- `summarize_coverage` of smart_test/analyzer.py.  The Python set
`low_coverage_files` is consumed only through `len`, carried here as the
number of distinct elements (`dedup.length`). -/
def summarize_coverage (functions : List FunctionInfo) : Summary :=
  let need_tests := functions.filter needsAttention
  let priority_funcs := (stableSortInitFirst need_tests).take 5
  let low_coverage_files :=
    ((functions.filter (fun fi => !fi.covered)).map (fun fi => fi.module_rel)).dedup
  { need_tests_count := need_tests.length
    low_coverage_count := low_coverage_files.length
    priority_functions := priority_funcs.map (fun fi => fi.qualname)
    untested_functions := need_tests }

/-- Module count as claim C9 words it: distinct modules containing at least
one function needing attention (`has_tests=false` OR `covered=false`).
Declared only to compare the claim's wording against the code. -/
def specModulesNeedingAttention (functions : List FunctionInfo) : Nat :=
  ((functions.filter needsAttention).map (fun fi => fi.module_rel)).dedup.length

/-! ### The coverage-aware analyze command (smart_test/main.py) -/

/-- The coverage block of `analyze_cmd`: parse the report (an exception
propagates and aborts the command), map coverage onto the records, then
summarize.  No partial result exists on the error path. -/
def analyze_cmd_with_coverage (results : List FunctionInfo) (x : XmlSource) :
    Except String (List FunctionInfo × Summary) := do
  let file_coverage ← parse_coverage_xml x
  let results := map_coverage_to_functions results file_coverage
  pure (results, summarize_coverage results)

/-! ### Skeleton generator (`generate_test_skeleton` of smart_test/analyzer.py) -/

/-- Outcome of the dynamic-import-and-introspect attempt inside the `try`
block of `generate_test_skeleton`:
`specFailed` — `spec_from_file_location` yields no spec or no loader (the
`return None` branch); `raised` — any exception during import, attribute
resolution or signature introspection (caught, falls to the fallback);
`notCallable` — the resolved object is missing or not callable (falls out
of the `try` to the fallback); `resolved params` — the object resolved and
`inspect.signature` yielded these parameter names. -/
inductive ImportOutcome where
  | specFailed
  | raised (msg : String)
  | notCallable
  | resolved (params : List String)
deriving DecidableEq, Repr

/-- True for the outcomes that reach the fallback scaffold. -/
def isFallback : ImportOutcome → Bool
  | .raised _ => true
  | .notCallable => true
  | _ => false

/-- The three common trailing lines appended by `test_code.extend(...)`. -/
def verifyLines : List String :=
  [ "    # Verify",
    "    assert result is not None  # Replace with actual assertion",
    "    # Cleanup - Add any necessary cleanup code here" ]

/-- The fallback scaffold at the end of `generate_test_skeleton`. -/
def fallbackSkeleton (qualname : String) : String :=
  let test_name := "test_" ++ underscoreDots qualname
  pyJoin nlStr
    [ "def " ++ test_name ++ "():",
      "    " ++ ( "# TODO: Implement test for " ++ qualname),
      "    " ++ ( "assert True" ++ "  # Replace with actual test") ]

/-- The introspection-based skeleton of the successful path of
`generate_test_skeleton` (`obj and callable(obj)` true). -/
def preferredSkeleton (qualname : String) (params : List String) : String :=
  let param_list := params.filter (fun n => n != "self")
  let func_parts := (splitOnChar '.' qualname.data).map (fun l => (⟨l⟩ : String))
  let test_name := "test_" ++ underscoreDots qualname
  let params_str := pyJoin commaSp (param_list.map (fun p => p ++ "=None"))
  let test_code :=
    match func_parts with
    | c0 :: p1 :: _ =>
      [ "def " ++ test_name ++ "():",
        "    # Setup",
        "    instance = " ++ c0 ++ "()",
        "    # Exercise",
        if param_list.isEmpty then "    result = instance." ++ p1 ++ "()"
        else "    result = instance." ++ p1 ++ "(" ++ params_str ++ ")" ]
    | _ =>
      [ "def " ++ test_name ++ "():",
        "    # Setup",
        if param_list.isEmpty then "    result = " ++ qualname ++ "()"
        else "    result = " ++ qualname ++ "(" ++ params_str ++ ")" ]
  pyJoin nlStr (test_code ++ verifyLines)

/-- `generate_test_skeleton` of smart_test/analyzer.py, with the dynamic
import/introspection effects carried by an explicit `ImportOutcome`:
the spec-creation failure returns `None`; an exception or an unresolved
target reaches the fallback scaffold; a resolved callable yields the
introspection-based skeleton. -/
def generate_test_skeleton (fi : FunctionInfo) (outcome : ImportOutcome) :
    Option String :=
  match outcome with
  | .specFailed => none
  | .raised _ => some (fallbackSkeleton fi.qualname)
  | .notCallable => some (fallbackSkeleton fi.qualname)
  | .resolved params => some (preferredSkeleton fi.qualname params)

/-! ### Complexity calculator, modelled from the spec

The repository's `CodeAnalyzer` (imported by smart_test/cli.py and
smart_test/generator.py, producing the `FunctionInfo` records of
smart_test/models.py with their `complexity` field) is not present under
src/; the calculator below is modelled from spec section 4.2, following the
design note of spec section 9: "model tree nodes as a tagged variant
(kind + payload)". -/

/-- Modelled from the spec: the node kinds the Complexity Calculator
distinguishes — conditional branch, for-loop, while-loop, try block, one
exception handler, scoped-resource (with) block, boolean and/or chain, and
every other construct. -/
inductive AstKind where
  | ifK | forK | whileK | tryK | handlerK | withK | boolOpK | otherK
deriving DecidableEq, Repr

/-- Modelled from the spec: one syntax node — a kind plus its child nodes;
the children of a boolean and/or chain are its operands. -/
inductive PyAst where
  | node (kind : AstKind) (children : List PyAst)

mutual

/-- Every node of a tree: the node itself and all nodes below it. -/
def flatA (t : PyAst) : List PyAst :=
  match t with
  | .node k ch => .node k ch :: flatL ch

/-- Every node of a forest, in order. -/
def flatL : List PyAst → List PyAst
  | [] => []
  | t :: ts => flatA t ++ flatL ts

end

/-- Modelled from the spec (4.2): the amount one construct adds to the
score — 1 per branch construct (if / for / while / try / each handler /
with), `k - 1` for a boolean expression over `k` operands, 0 otherwise. -/
def nodeWeight : PyAst → Nat
  | .node k ch =>
    match k with
    | .ifK | .forK | .whileK | .tryK | .handlerK | .withK => 1
    | .boolOpK => ch.length - 1
    | .otherK => 0

/-- Modelled from the spec (4.2): per-function structural complexity —
start at 1, then add the weight of every construct found anywhere within
the function body. -/
def funcComplexity (body : List PyAst) : Nat :=
  1 + ((flatL body).map nodeWeight).sum

/-- Indicator weight of a branch construct (spec 4.2 wording: conditional
branch, loop, try and each handler, with-block). -/
def branchWeight : PyAst → Nat
  | .node k _ =>
    match k with
    | .ifK | .forK | .whileK | .tryK | .handlerK | .withK => 1
    | _ => 0

/-- The `k - 1` weight of a boolean and/or chain over `k` operands. -/
def boolExcessWeight : PyAst → Nat
  | .node .boolOpK ch => ch.length - 1
  | _ => 0

/-- Number of branch-construct occurrences anywhere in the body. -/
def branchCount (body : List PyAst) : Nat :=
  ((flatL body).map branchWeight).sum

/-- Sum of `k - 1` over the boolean expressions anywhere in the body. -/
def boolExcess (body : List PyAst) : Nat :=
  ((flatL body).map boolExcessWeight).sum

/-- Modelled from the spec: the `FunctionRecord` fields claim C4 depends
on (name, declaration line, complexity score; smart_test/models.py carries
the same `complexity: int` field). -/
structure FuncRecord where
  name : String
  line_number : Int
  complexity : Nat
deriving DecidableEq, Repr

/-- Modelled from the spec: during extraction every emitted record carries
the calculator's score for its body. -/
def extractRecords (funcs : List (String × Int × List PyAst)) : List FuncRecord :=
  funcs.map (fun f =>
    { name := f.1, line_number := f.2.1, complexity := funcComplexity f.2.2 })

/-! ### Concrete inputs used by witnesses and counterexamples -/

/-- A test file whose text holds the underscored method test name. -/
def c1File : TestFile :=
  { stem := "test_calc", content := "def test_Calculator_add(): pass" }

/-- Record for `add` at line 5 of calc.py (coverage example of the spec). -/
def fiAdd : FunctionInfo :=
  { file := "/p/calc.py", module_rel := "calc.py", qualname := "add",
    lineno := 5, has_tests := true }

/-- Record at line 6 of calc.py with no reported hit. -/
def fiAt6 : FunctionInfo :=
  { file := "/p/calc.py", module_rel := "calc.py", qualname := "sub",
    lineno := 6, has_tests := true }

/-- Coverage class element: line 5 of calc.py with one hit. -/
def calcCov : CovClass :=
  { filename := "calc.py", lines := [ { number := 5, hits := 1 } ] }

/-- A record whose file lacks a recognized Python suffix, so
`spec_from_file_location` yields no loadable spec. -/
def fiTxt : FunctionInfo :=
  { file := "/p/calc.txt", module_rel := "calc.txt",
    qualname := "Calculator.add", lineno := 5, has_tests := false }

/-- Module tree holding one top-level function named `test_foo`. -/
def c6TestFunTree : PyNode := .stmtNode [ .funcDef "test_foo" 1 [] ]

/-- Module tree holding a class `C` with a private method `_p`. -/
def c6PrivTree : PyNode := .stmtNode [ .classDef "C" [ .funcDef "_p" 2 [] ] ]

/-- Module tree holding class `C` with method `m` at nesting depth 2. -/
def c6MethodTree : PyNode :=
  .stmtNode [ .stmtNode [ .classDef "C" [ .funcDef "m" 3 [] ] ] ]

/-- A record lacking tests but covered (needs attention, yet its module
has no uncovered function). -/
def fiC9 : FunctionInfo :=
  { file := "/p/m.py", module_rel := "m.py", qualname := "f",
    lineno := 1, has_tests := false, covered := true }

/-- First of two class elements sharing one filename. -/
def covA : CovClass :=
  { filename := "calc.py", lines := [ { number := 7, hits := 1 } ] }

/-- Second of two class elements sharing one filename. -/
def covB : CovClass :=
  { filename := "calc.py", lines := [ { number := 9, hits := 2 } ] }

/-- Body with exactly one `if` whose test is one boolean `and` over three
operands (spec's complexity example). -/
def exIfAnd : List PyAst :=
  [ .node .ifK [ .node .boolOpK
      [ .node .otherK [], .node .otherK [], .node .otherK [] ] ] ]

/-- One extracted function with the `exIfAnd` body. -/
def c4Funcs : List (String × Int × List PyAst) := [( "add", 5, exIfAnd )]

/-- The record `extractRecords` produces for `c4Funcs`. -/
def c4Rec : FuncRecord :=
  { name := "add", line_number := 5, complexity := funcComplexity exIfAnd }

/-- A file that parses: one top-level function `g`. -/
def goodFile : SrcFile :=
  { file := "/p/good.py", rel := "good.py",
    parsed := .ok (.stmtNode [ .funcDef "g" 1 [] ]) }

/-- A file whose text fails to parse. -/
def badFile : SrcFile :=
  { file := "/p/bad.py", rel := "bad.py", parsed := .error "SyntaxError" }

/-! ### Helper lemmas -/

/-- A concatenation visibly containing the pattern contains it. -/
theorem containsSub_here (pre pat suf : String) : ContainsSub (pre ++ pat ++ suf) pat :=
  ⟨pre, suf, rfl⟩

/-- Containment persists under appending on the right. -/
theorem containsSub_append_left (s t pat : String) (h : ContainsSub s pat) :
    ContainsSub (s ++ t) pat := by
  obtain ⟨a, b, rfl⟩ := h
  exact ⟨a, b ++ t, by simp [String.append_assoc]⟩

/-- Containment persists under appending on the left. -/
theorem containsSub_append_right (s t pat : String) (h : ContainsSub t pat) :
    ContainsSub (s ++ t) pat := by
  obtain ⟨a, b, rfl⟩ := h
  exact ⟨s ++ a, b, by simp [String.append_assoc]⟩

/-- Every string contains itself. -/
theorem containsSub_self (pat : String) : ContainsSub pat pat :=
  ⟨"", "", by simp⟩

/-- Containment in the first joined line. -/
theorem containsSub_pyJoin_head (sep l pat : String) (ls : List String)
    (h : ContainsSub l pat) : ContainsSub (pyJoin sep (l :: ls)) pat := by
  cases ls with
  | nil => simpa [pyJoin] using h
  | cons l' ls' =>
    simp only [pyJoin]
    exact containsSub_append_left _ _ _ h

/-- Containment in the tail of a join of at least two lines. -/
theorem containsSub_pyJoin_tail (sep l l' pat : String) (ls : List String)
    (h : ContainsSub (pyJoin sep (l' :: ls)) pat) :
    ContainsSub (pyJoin sep (l :: l' :: ls)) pat := by
  simp only [pyJoin]
  exact containsSub_append_right _ _ _ (containsSub_append_right _ _ _ h)

/-- The early-return loop of `_has_tests_for` equals an existence test over
the candidate files. -/
theorem hasTestsLoop_eq_any (mod_base func_name method_name : String)
    (class_name : Option String) (files : List TestFile) :
    hasTestsLoop mod_base func_name method_name class_name files =
      files.any (fun tf =>
        relevantFile mod_base class_name tf &&
          fileMatches func_name method_name class_name tf) := by
  induction files with
  | nil => rfl
  | cons tf rest ih =>
    cases hr : relevantFile mod_base class_name tf <;>
      cases hm : fileMatches func_name method_name class_name tf <;>
        simp [hasTestsLoop, hr, hm, ih]

/-- Summing a pointwise sum of weights splits into two sums. -/
theorem sum_map_addWeights {α : Type} (f g : α → Nat) (l : List α) :
    (l.map (fun t => f t + g t)).sum = (l.map f).sum + (l.map g).sum := by
  induction l with
  | nil => simp
  | cons x xs ih => simp [ih]; omega

mutual

/-- Node equality is reflexive. -/
theorem beqNode_refl (n : PyNode) : beqNode n n = true := by
  cases n <;> simp [beqNode, beqNodes_refl]

/-- Node-list equality is reflexive. -/
theorem beqNodes_refl (l : List PyNode) : beqNodes l l = true := by
  cases l with
  | nil => simp [beqNodes]
  | cons a as => simp [beqNodes, beqNode_refl a, beqNodes_refl as]

end

/-- Every queued node appears in the traversal. -/
theorem mem_walk_of_mem (q : List PyNode) : ∀ n ∈ q, n ∈ walk q := by
  induction q using walk.induct with
  | case1 => intro n h; cases h
  | case2 n rest ih =>
    intro m hm
    rw [walk]
    rcases List.mem_cons.mp hm with h | h
    · exact h ▸ List.mem_cons_self _ _
    · exact List.mem_cons_of_mem _ (ih m (List.mem_append_left _ h))

/-- The traversal is closed under taking children. -/
theorem mem_walk_children (q : List PyNode) :
    ∀ x ∈ walk q, ∀ y ∈ childrenOf x, y ∈ walk q := by
  induction q using walk.induct with
  | case1 =>
    intro x hx
    rw [walk] at hx
    cases hx
  | case2 n rest ih =>
    intro x hx y hy
    rw [walk] at hx ⊢
    rcases List.mem_cons.mp hx with h | h
    · subst h
      exact List.mem_cons_of_mem _
        (mem_walk_of_mem _ y (List.mem_append_right _ hy))
    · exact List.mem_cons_of_mem _ (ih x h y hy)

/-! ### C7 -/

/-- C7: for every malformed coverage-report input, the coverage-aware
analyze command aborts with the cause reported and produces no result pair
at all — in particular no record with covered=true. -/
theorem C7_malformed_coverage_aborts (results : List FunctionInfo) (msg : String) :
    analyze_cmd_with_coverage results (XmlSource.malformed msg) = Except.error msg ∧
    ∀ out : List FunctionInfo × Summary,
      analyze_cmd_with_coverage results (XmlSource.malformed msg) ≠ Except.ok out := by
  refine ⟨rfl, ?_⟩
  intro out h
  simp [analyze_cmd_with_coverage, parse_coverage_xml, ET_parse, Except.map,
    Functor.map] at h

/-! ### C8 -/

/-- C8: a file whose text fails to parse contributes no records and is
skipped, while extraction for all files before and after it is unaffected. -/
theorem C8_parse_failure_nonfatal (pre post : List SrcFile) (bad : SrcFile)
    (tfs : List TestFile) (e : String) (h : bad.parsed = Except.error e) :
    analyze_file tfs bad.file bad.rel bad.parsed = [] ∧
    analyze_project (pre ++ bad :: post) tfs =
      analyze_project pre tfs ++ analyze_project post tfs := by
  have h1 : analyze_file tfs bad.file bad.rel bad.parsed = [] := by
    rw [h]
    unfold analyze_file
    split <;> rfl
  refine ⟨h1, ?_⟩
  simp [analyze_project, h1]

/-- Witness for C8 at one parsing file and one failing file. -/
theorem C8_parse_failure_nonfatal_witness :
    analyze_file [] badFile.file badFile.rel badFile.parsed = [] ∧
    analyze_project ([goodFile] ++ badFile :: []) [] =
      analyze_project [goodFile] [] ++ analyze_project [] [] :=
  C8_parse_failure_nonfatal [goodFile] [] badFile [] _ rfl

/-! ### C10 -/

/-- C10: when two class elements share the same filename attribute, the
built CoverageMap keeps only the last one's covered-line set (the dict
entry is overwritten), not the union; concretely, line 7 covered only by
the first element is absent from the final set. -/
theorem C10_duplicate_filename_last_wins (c1 c2 : CovClass)
    (h : c1.filename = c2.filename) :
    dictGet (buildCoverage [c1, c2]) c2.filename = coveredLines c2 ∧
    ((7 : Int) ∈ coveredLines covA ∧
      ¬ (7 : Int) ∈ dictGet (buildCoverage [covA, covB]) ( "calc.py")) := by
  constructor
  · simp [buildCoverage, dictInsert, dictGet, h, List.find?]
  · exact ⟨by decide, by decide⟩

/-- Witness for C10 at the two concrete calc.py class elements. -/
theorem C10_duplicate_filename_last_wins_witness :
    dictGet (buildCoverage [covA, covB]) covB.filename = coveredLines covB :=
  (C10_duplicate_filename_last_wins covA covB rfl).1

/-! ### C2 -/

/-- C2: a line is covered iff its reported hits exceed zero; the mapping
pass marks a not-yet-covered record covered iff its declaration line is in
the covered set keyed by the exact string of its relative module path (a
key mismatch silently yields not-covered, never an error); concretely,
`add` at line 5 of calc.py with hits 1 becomes covered while the record at
line 6 stays uncovered. -/
theorem C2_coverage_mapping :
    (∀ (c : CovClass) (n : Int),
      n ∈ dictGet (buildCoverage [c]) c.filename ↔
        ∃ l ∈ c.lines, l.number = n ∧ 0 < l.hits) ∧
    (∀ (fc : List (String × List Int)) (fi : FunctionInfo),
      fi.covered = false →
        ((mapRecord fc fi).covered = true ↔ fi.lineno ∈ dictGet fc fi.module_rel)) ∧
    (∀ (fns : List FunctionInfo) (fc : List (String × List Int)),
      map_coverage_to_functions fns fc = fns.map (mapRecord fc)) ∧
    (mapRecord (buildCoverage [calcCov]) fiAdd).covered = true ∧
    (mapRecord (buildCoverage [calcCov]) fiAt6).covered = false := by
  refine ⟨?_, ?_, fun _ _ => rfl, by decide, by decide⟩
  · intro c n
    simp only [buildCoverage, List.foldl, dictInsert, List.any_nil,
      Bool.false_eq_true, if_neg, List.nil_append, dictGet, List.find?,
      beq_self_eq_true]
    simp [coveredLines, List.mem_map, List.mem_filter]
    constructor
    · rintro ⟨l, ⟨hl, hh⟩, hn⟩
      exact ⟨l, hl, hn, hh⟩
    · rintro ⟨l, hl, hn, hh⟩
      exact ⟨l, ⟨hl, hh⟩, hn⟩
  · intro fc fi hcov
    by_cases hm : fi.lineno ∈ dictGet fc fi.module_rel <;>
      simp [mapRecord, hm, hcov]

/-- Witness for C2 at the calc.py report and the line-5 record. -/
theorem C2_coverage_mapping_witness :
    ((mapRecord (buildCoverage [calcCov]) fiAdd).covered = true ↔
      fiAdd.lineno ∈ dictGet (buildCoverage [calcCov]) fiAdd.module_rel) :=
  C2_coverage_mapping.2.1 (buildCoverage [calcCov]) fiAdd rfl

/-! ### C1 -/

/-- C1 (counterexample): for method `Calculator.add` of calc.py and a
relevant test file containing only `test_Calculator_add`, the claim's
underscored-qualname reading answers true while the code's matcher, which
checks `test_Calculator.add` with the dot kept, answers false. -/
theorem C1_counterexample :
    specHasTests "calc.py" "Calculator.add" [c1File] = true ∧
    has_tests_for "calc.py" "Calculator.add" [c1File] = false := by
  constructor
  · decide
  · decide

/-- C1 (amended): the matcher returns true iff some candidate file whose
stem contains the module stem (or, for a method, case-insensitively
contains the class name) has text containing `test_<method-name>` or
`test_<qualname>` — the qualname verbatim, with its dot kept, not with the
dot replaced by an underscore — or, for methods, `Test<ClassName>`. -/
theorem C1_matcher_amended (module_rel func_name : String)
    (test_files : List TestFile) :
    has_tests_for module_rel func_name test_files = true ↔
      ∃ tf ∈ test_files,
        relevantFile (pathStem module_rel) (splitQual func_name).1 tf = true ∧
        (strHasSub tf.content ( "test_" ++ (splitQual func_name).2) = true ∨
         strHasSub tf.content ( "test_" ++ func_name) = true ∨
         ∃ c, (splitQual func_name).1 = some c ∧
           strHasSub tf.content ( "Test" ++ c) = true) := by
  rw [has_tests_for, hasTestsLoop_eq_any, List.any_eq_true]
  cases hcls : (splitQual func_name).1 with
  | none =>
    simp [fileMatches, hcls, Bool.and_eq_true, Bool.or_eq_true]
  | some c =>
    simp [fileMatches, hcls, Bool.and_eq_true, Bool.or_eq_true, or_assoc]

/-! ### C9 -/

/-- C9 (counterexample): one record lacking tests but covered needs
attention, so the claim's module count is 1, yet the code's
low-coverage-module count is 0 (it counts modules with an uncovered
function, not modules with a function needing attention). -/
theorem C9_counterexample :
    specModulesNeedingAttention [fiC9] = 1 ∧
    (summarize_coverage [fiC9]).low_coverage_count = 0 := by
  constructor
  · decide
  · decide

/-- C9 (amended): the summarizer computes the needing-attention records as
those with has_tests=false OR covered=false; its module count is the
number of distinct modules containing at least one record with
covered=false (not: needing attention); the priority list places
qualnames starting with `__init__` first, otherwise preserving discovery
order (both blocks are sublists of the needing-attention list), truncated
to at most 5 entries; and the input records are returned unchanged inside
the summary. -/
theorem C9_summarizer_amended (fns : List FunctionInfo) :
    (summarize_coverage fns).need_tests_count = (fns.filter needsAttention).length ∧
    (summarize_coverage fns).untested_functions = fns.filter needsAttention ∧
    (summarize_coverage fns).low_coverage_count =
      ((fns.filter (fun fi => !fi.covered)).map (fun fi => fi.module_rel)).toFinset.card ∧
    (summarize_coverage fns).priority_functions =
      ((((fns.filter needsAttention).filter (fun fi => isInitName fi.qualname)) ++
        ((fns.filter needsAttention).filter (fun fi => !isInitName fi.qualname))).take 5).map
          (fun fi => fi.qualname) ∧
    (summarize_coverage fns).priority_functions.length ≤ 5 ∧
    ((fns.filter needsAttention).filter (fun fi => isInitName fi.qualname)).Sublist
      (fns.filter needsAttention) ∧
    ((fns.filter needsAttention).filter (fun fi => !isInitName fi.qualname)).Sublist
      (fns.filter needsAttention) := by
  refine ⟨rfl, rfl, ?_, rfl, ?_, List.filter_sublist _, List.filter_sublist _⟩
  · simp [summarize_coverage, List.card_toFinset]
  · simp [summarize_coverage, stableSortInitFirst]

/-! ### C3 -/

/-- The fallback scaffold names the underscored test function. -/
theorem fallback_has_testname (q : String) :
    ContainsSub (fallbackSkeleton q) ( "test_" ++ underscoreDots q) := by
  simp only [fallbackSkeleton]
  apply containsSub_pyJoin_head
  exact containsSub_append_left _ _ _
    (containsSub_append_right _ _ _ (containsSub_self _))

/-- The fallback scaffold holds the TODO comment naming the qualname. -/
theorem fallback_has_todo (q : String) :
    ContainsSub (fallbackSkeleton q) ( "# TODO: Implement test for " ++ q) := by
  simp only [fallbackSkeleton]
  apply containsSub_pyJoin_tail
  apply containsSub_pyJoin_head
  exact containsSub_append_right _ _ _ (containsSub_self _)

/-- The fallback scaffold holds the trivially true assertion. -/
theorem fallback_has_assert (q : String) :
    ContainsSub (fallbackSkeleton q) ( "assert True") := by
  simp only [fallbackSkeleton]
  apply containsSub_pyJoin_tail
  apply containsSub_pyJoin_tail
  apply containsSub_pyJoin_head
  exact containsSub_append_right _ _ _
    (containsSub_append_left _ _ _ (containsSub_self _))

/-- The introspection-based skeleton also names the underscored test
function on its first line. -/
theorem preferred_has_testname (q : String) (params : List String) :
    ContainsSub (preferredSkeleton q params) ( "test_" ++ underscoreDots q) := by
  simp only [preferredSkeleton]
  split
  · simp only [List.cons_append]
    apply containsSub_pyJoin_head
    exact containsSub_append_left _ _ _
      (containsSub_append_right _ _ _ (containsSub_self _))
  · simp only [List.cons_append]
    apply containsSub_pyJoin_head
    exact containsSub_append_left _ _ _
      (containsSub_append_right _ _ _ (containsSub_self _))

/-- C3 (counterexample): when module-spec creation yields no loadable spec
(for instance a record whose file is `calc.txt`), the skeleton generator
returns no text at all (`None`), refuting "always returns test source
text". -/
theorem C3_counterexample :
    generate_test_skeleton fiTxt ImportOutcome.specFailed = none := rfl

/-- C3 (amended): the skeleton generator never raises; except when module
spec creation fails to produce a loadable spec (where it returns `None`),
it returns test text containing the test name
`test_<qualname with '.' replaced by '_'>`, and in the fallback case
(import raises, attribute resolution fails, or introspection fails) the
text additionally holds a TODO comment naming the qualname and a trivially
true assertion. -/
theorem C3_skeleton_amended (fi : FunctionInfo) (outcome : ImportOutcome)
    (h : outcome ≠ ImportOutcome.specFailed) :
    ∃ s, generate_test_skeleton fi outcome = some s ∧
      ContainsSub s ( "test_" ++ underscoreDots fi.qualname) ∧
      (isFallback outcome = true →
        ContainsSub s ( "# TODO: Implement test for " ++ fi.qualname) ∧
        ContainsSub s ( "assert True")) := by
  cases outcome with
  | specFailed => exact absurd rfl h
  | raised msg =>
    exact ⟨fallbackSkeleton fi.qualname, rfl, fallback_has_testname _,
      fun _ => ⟨fallback_has_todo _, fallback_has_assert _⟩⟩
  | notCallable =>
    exact ⟨fallbackSkeleton fi.qualname, rfl, fallback_has_testname _,
      fun _ => ⟨fallback_has_todo _, fallback_has_assert _⟩⟩
  | resolved params =>
    refine ⟨preferredSkeleton fi.qualname params, rfl,
      preferred_has_testname _ _, ?_⟩
    intro hf
    simp [isFallback] at hf

/-- Witness for C3 at the `Calculator.add` record and a fallback outcome. -/
theorem C3_skeleton_amended_witness :
    ∃ s, generate_test_skeleton fiTxt ImportOutcome.notCallable = some s ∧
      ContainsSub s ( "test_" ++ underscoreDots fiTxt.qualname) ∧
      (isFallback ImportOutcome.notCallable = true →
        ContainsSub s ( "# TODO: Implement test for " ++ fiTxt.qualname) ∧
        ContainsSub s ( "assert True")) :=
  C3_skeleton_amended fiTxt ImportOutcome.notCallable (by decide)

/-! ### C4 -/

/-- C4: every extracted function record carries a complexity score of at
least 1. -/
theorem C4_complexity_ge_one (funcs : List (String × Int × List PyAst))
    (r : FuncRecord) (h : r ∈ extractRecords funcs) : 1 ≤ r.complexity := by
  rcases List.mem_map.mp h with ⟨f, hf, rfl⟩
  simp [funcComplexity]

/-- Witness for C4 at the one-function extraction. -/
theorem C4_complexity_ge_one_witness :
    c4Rec ∈ extractRecords c4Funcs ∧ 1 ≤ c4Rec.complexity :=
  ⟨by decide, C4_complexity_ge_one c4Funcs c4Rec (by decide)⟩

/-! ### C5 -/

/-- C5: the computed structural complexity equals exactly 1 plus the
number of branch-construct occurrences anywhere in the body plus the sum
of (operand count minus 1) over boolean expressions; in particular the
body with one `if` and one `and` over 3 operands scores 4. -/
theorem C5_complexity_formula :
    (∀ body : List PyAst,
      funcComplexity body = 1 + branchCount body + boolExcess body) ∧
    funcComplexity exIfAnd = 4 := by
  constructor
  · intro body
    have hw : nodeWeight = fun t => branchWeight t + boolExcessWeight t := by
      funext t
      cases t with
      | node k ch =>
        cases k <;> simp [nodeWeight, branchWeight, boolExcessWeight]
    simp only [funcComplexity, branchCount, boolExcess, hw, sum_map_addWeights]
    omega
  · decide

/-! ### C6 -/

/-- C6 (counterexample): a function named `test_foo` inside the non-test
module calc.py IS emitted as a subject under test, and a private method
(`C._p`, whose qualified name starts with the class name, not with an
underscore) IS kept — refuting "never emitted" and "private excluded". -/
theorem C6_counterexample :
    ((analyze_file [] ( "/p/calc.py") ( "calc.py")
        (Except.ok c6TestFunTree)).any
      (fun fi => strStarts fi.qualname ( "test_")) = true) ∧
    ((analyze_file [] ( "/p/util.py") ( "util.py")
        (Except.ok c6PrivTree)).any
      (fun fi => fi.qualname == "C._p") = true) := by
  have h1 : walk [PyNode.stmtNode [ .funcDef "test_foo" 1 [] ]] =
      [ .stmtNode [ .funcDef "test_foo" 1 [] ], .funcDef "test_foo" 1 [] ] := by
    simp [walk, childrenOf]
  have h2 : walk [PyNode.stmtNode [ .classDef "C" [ .funcDef "_p" 2 [] ] ]] =
      [ .stmtNode [ .classDef "C" [ .funcDef "_p" 2 [] ] ],
        .classDef "C" [ .funcDef "_p" 2 [] ], .funcDef "_p" 2 [] ] := by
    simp [walk, childrenOf]
  have hfa1 : functions_in_ast c6TestFunTree = [( "test_foo", 1)] := by
    simp only [c6TestFunTree, functions_in_ast, parentClassOf]
    rw [h1]
    decide
  have hfa2 : functions_in_ast c6PrivTree = [( "C._p", 2)] := by
    simp only [c6PrivTree, functions_in_ast, parentClassOf]
    rw [h2]
    decide
  constructor
  · simp only [analyze_file, hfa1]
    decide
  · simp only [analyze_file, hfa2]
    decide

/-- C6 (amended): extraction skips whole files whose relative path starts
with tests/ or contains test_ or _test; in remaining files the only
function-name filter is on the qualified name — a qualname starting with
an underscore is dropped unless it starts with `__init__`, so a top-level
`test_*` function is emitted and a private method is kept (its qualname
starts with the class name); every extracted pair passing the filter
yields a record; and a method whose class sits at any nesting depth is
extracted in `ClassName.method` form. -/
theorem C6_extraction_amended :
    (∀ (tfs : List TestFile) (file rel : String) (p : Except String PyNode),
      skipFile rel = true → analyze_file tfs file rel p = []) ∧
    (∀ (tfs : List TestFile) (file rel : String) (p : Except String PyNode)
      (fi : FunctionInfo), fi ∈ analyze_file tfs file rel p →
        strStarts fi.qualname ( "_") = true →
        strStarts fi.qualname ( "__init__") = true) ∧
    (∀ (tfs : List TestFile) (file rel : String) (tree : PyNode)
      (q : String) (l : Int),
      skipFile rel = false → (q, l) ∈ functions_in_ast tree →
      (strStarts q ( "_") = true → strStarts q ( "__init__") = true) →
      ∃ fi ∈ analyze_file tfs file rel (Except.ok tree),
        fi.qualname = q ∧ fi.lineno = l) ∧
    (∀ (tree : PyNode) (cn : String) (cb : List PyNode) (nm : String)
      (l : Int) (b : List PyNode),
      PyNode.classDef cn cb ∈ walk [tree] → PyNode.funcDef nm l b ∈ cb →
      ∃ c, (c ++ "." ++ nm, l) ∈ functions_in_ast tree) := by
  refine ⟨?_, ?_, ?_, ?_⟩
  · intro tfs file rel p hskip
    simp [analyze_file, hskip]
  · intro tfs file rel p fi hmem hund
    by_cases hs : skipFile rel
    · simp [analyze_file, hs] at hmem
    · cases p with
      | error e => simp [analyze_file, hs] at hmem
      | ok tree =>
        unfold analyze_file at hmem
        rw [if_neg hs] at hmem
        obtain ⟨ql, hql, heq⟩ := List.mem_map.mp hmem
        obtain ⟨hq, hkeep⟩ := List.mem_filter.mp hql
        subst heq
        replace hund : strStarts ql.1 ( "_") = true := hund
        show strStarts ql.1 ( "__init__") = true
        simpa [keepQualname, hund] using hkeep
  · intro tfs file rel tree q l hskip hq hund
    have hkeep : keepQualname q = true := by
      cases hb : strStarts q ( "_")
      · simp [keepQualname, hb]
      · simp [keepQualname, hb, hund hb]
    have hmem :
        ({ file := file, module_rel := rel, qualname := q, lineno := l,
             has_tests := has_tests_for rel q tfs } : FunctionInfo) ∈
          analyze_file tfs file rel (Except.ok tree) := by
      unfold analyze_file
      rw [if_neg (by simp [hskip])]
      exact List.mem_map.mpr ⟨(q, l), List.mem_filter.mpr ⟨hq, hkeep⟩, rfl⟩
    exact ⟨_, hmem, rfl, rfl⟩
  · intro tree cn cb nm l b hcls hfn
    have hnode : PyNode.funcDef nm l b ∈ walk [tree] :=
      mem_walk_children [tree] _ hcls _ (by simpa [childrenOf] using hfn)
    have hex : ∃ x ∈ walk [tree],
        isClassWithNode (PyNode.funcDef nm l b) x = true :=
      ⟨PyNode.classDef cn cb, hcls, by
        simp only [isClassWithNode, bodyContains, List.any_eq_true]
        exact ⟨_, hfn, beqNode_refl _⟩⟩
    have hsome :
        ((walk [tree]).find? (isClassWithNode (PyNode.funcDef nm l b))).isSome :=
      List.find?_isSome.mpr hex
    obtain ⟨found, hfound⟩ := Option.isSome_iff_exists.mp hsome
    have hpred := List.find?_some hfound
    cases found with
    | funcDef a c d => simp [isClassWithNode] at hpred
    | stmtNode a => simp [isClassWithNode] at hpred
    | classDef c cb2 =>
      refine ⟨c, ?_⟩
      apply List.mem_filterMap.mpr
      refine ⟨PyNode.funcDef nm l b, hnode, ?_⟩
      simp [parentClassOf, hfound]

/-- Witness for C6: a tests/ file yields no records, and the depth-2 class
method of `c6MethodTree` is extracted in `C.m` form. -/
theorem C6_extraction_amended_witness :
    analyze_file [] ( "/p/t.py") ( "tests/t.py")
      (Except.ok (PyNode.stmtNode [])) = [] ∧
    ∃ c, (c ++ "." ++ "m", (3 : Int)) ∈ functions_in_ast c6MethodTree := by
  constructor
  · exact C6_extraction_amended.1 [] _ _ _ (by decide)
  · refine C6_extraction_amended.2.2.2 c6MethodTree "C"
      [ .funcDef "m" 3 [] ] "m" 3 [] ?_ ?_
    · have h3 : walk [PyNode.stmtNode
          [ .stmtNode [ .classDef "C" [ .funcDef "m" 3 [] ] ] ]] =
          [ .stmtNode [ .stmtNode [ .classDef "C" [ .funcDef "m" 3 [] ] ] ],
            .stmtNode [ .classDef "C" [ .funcDef "m" 3 [] ] ],
            .classDef "C" [ .funcDef "m" 3 [] ],
            .funcDef "m" 3 [] ] := by
        simp [walk, childrenOf]
      simp only [c6MethodTree]
      rw [h3]
      exact List.mem_cons_of_mem _
        (List.mem_cons_of_mem _ (List.mem_cons_self _ _))
    · exact List.mem_cons_self _ _
